import Mathlib

/-
Verification of the votron proposal-voting pipeline.

Shallow embedding of the core modules:
 - src/src/agentQueue.ts        (serialized call queue with retry)
 - src/src/voter.ts             (decision engine / execution state machine)
 - src/src/voting-utils.ts      (chain read/verify protocol helpers)
 - src/unnamed/part_000         (event handler handleVote readiness polling)

JavaScript Maps become association lists with insertion-order-preserving
update, promises/network calls become oracle values recorded in an effect
trace, and timestamps become natural numbers.
-/

deriving instance DecidableEq for Except

namespace Votron

/-! ### String helpers (JS `String.prototype.includes` on char lists) -/

/-- Whether the first char list is an initial segment of the second. -/
def startsWithChars : List Char → List Char → Bool
  | [], _ => true
  | _ :: _, [] => false
  | p :: ps, c :: cs => p == c && startsWithChars ps cs

/-- Whether `pat` occurs contiguously inside the char list. -/
def hasSubChars (pat : List Char) : List Char → Bool
  | [] => startsWithChars pat []
  | c :: cs => startsWithChars pat (c :: cs) || hasSubChars pat cs

/-- JS `s.includes(pat)`: substring containment on strings. -/
def containsSubstr (s pat : String) : Bool :=
  hasSubChars pat.toList s.toList

/-- JS `s.toLowerCase()` (ASCII, which covers every string the pipeline
compares). -/
def toLowerStr (s : String) : String :=
  String.mk (s.toList.map Char.toLower)

/-- JS `s.trim()`: strip leading and trailing whitespace. -/
def trimStr (s : String) : String :=
  String.mk
    (((s.toList.dropWhile Char.isWhitespace).reverse.dropWhile
        Char.isWhitespace).reverse)

/-- JS emptiness test on a string (falsiness of `""`). -/
def strEmpty (s : String) : Bool :=
  s.toList.isEmpty

/-! ### Serialized Call Queue (src/src/agentQueue.ts)

A queued thunk is modelled by a script: the outcome of its k-th invocation.
`resolve`/`reject` of the caller promise become `ItemStep` results. -/

/-- Result of one invocation of a queued thunk. -/
inductive Outcome
  | success
  | failure (msg : String)
deriving DecidableEq, Repr

/-- `QueueItem` from agentQueue.ts; the thunk `call` is the `script`
(outcome of each successive invocation), `resolve`/`reject` are implicit
in the produced events. -/
structure QueueItem where
  id : Nat
  script : List Outcome
  timestamp : Nat := 0
  retryCount : Nat := 0
deriving DecidableEq, Repr

/-- Outcome of the next invocation of the item's thunk: invocation number
equals the current retry count (the thunk reruns exactly on retries). -/
def itemOutcome (item : QueueItem) : Outcome :=
  item.script.getD item.retryCount Outcome.success

/-- `shouldRetry` from agentQueue.ts: transient-error markers looked up in
the lower-cased error message. -/
def shouldRetry (msg : String) : Bool :=
  let errorMessage := toLowerStr msg
  containsSubstr errorMessage "nonce" ||
  containsSubstr errorMessage "timeout" ||
  containsSubstr errorMessage "network" ||
  containsSubstr errorMessage "connection" ||
  containsSubstr errorMessage "timed out"

/-- What `processQueueItem` did with an item. -/
inductive ItemStep
  | resolved (id : Nat)
  | rejected (id : Nat) (msg : String)
  | requeued (item : QueueItem)
deriving DecidableEq, Repr

/-- `processQueueItem` from agentQueue.ts: run the thunk; on success resolve;
on failure requeue (with incremented retry count and fresh timestamp) when
the retry count is below 2 and the error is transient, else reject. -/
def processQueueItem (now : Nat) (item : QueueItem) : ItemStep :=
  match itemOutcome item with
  | Outcome.success => ItemStep.resolved item.id
  | Outcome.failure msg =>
    if item.retryCount < 2 && shouldRetry msg then
      ItemStep.requeued { item with retryCount := item.retryCount + 1, timestamp := now }
    else
      ItemStep.rejected item.id msg

/-- Observable queue events: each thunk invocation (with its invocation
number), and each caller-promise completion. -/
inductive QueueEvent
  | attempt (id : Nat) (invocation : Nat)
  | resolved (id : Nat)
  | rejected (id : Nat) (msg : String)
deriving DecidableEq, Repr

/-- `processQueue` drain loop from agentQueue.ts: repeatedly shift the head
item; a requeued item is unshifted back to the front of the queue. Fuel
bounds the number of invocations; the fuel value doubles as the clock fed
to the retry timestamp. -/
def processQueue : Nat → List QueueItem → List QueueEvent
  | 0, _ => []
  | _, [] => []
  | fuel + 1, item :: rest =>
    let ev := QueueEvent.attempt item.id item.retryCount
    match processQueueItem fuel item with
    | ItemStep.resolved i => ev :: QueueEvent.resolved i :: processQueue fuel rest
    | ItemStep.rejected i m => ev :: QueueEvent.rejected i m :: processQueue fuel rest
    | ItemStep.requeued it => ev :: processQueue fuel (it :: rest)

/-- `MAX_QUEUE_SIZE` bound from `enqueue`. -/
def MAX_QUEUE_SIZE : Nat := 100

/-- `enqueue` from agentQueue.ts: reject at capacity, else append. -/
def enqueue (queue : List QueueItem) (item : QueueItem) :
    Except String (List QueueItem) :=
  if MAX_QUEUE_SIZE ≤ queue.length then
    Except.error "Queue full (max 100 items)"
  else
    Except.ok (queue ++ [item])

/-- Caller-promise completions among the events, in order. -/
def completionsOf (evs : List QueueEvent) : List Nat :=
  evs.filterMap fun e =>
    match e with
    | QueueEvent.resolved i => some i
    | QueueEvent.rejected i _ => some i
    | QueueEvent.attempt _ _ => none

/-- How many times the thunk of item `i` was invoked. -/
def attemptsOf (i : Nat) (evs : List QueueEvent) : Nat :=
  (evs.filter fun e =>
    match e with
    | QueueEvent.attempt j _ => j == i
    | _ => false).length

/-! ### Data model (src/src/voting-utils.ts, src/src/voter.ts) -/

/-- `VoteOption` from voter.ts. -/
inductive VoteOption
  | For
  | Against
  | Abstain
deriving DecidableEq, Repr

/-- Runtime string of a `VoteOption` (JS string interpolation). -/
def VoteOption.str : VoteOption → String
  | VoteOption.For => "For"
  | VoteOption.Against => "Against"
  | VoteOption.Abstain => "Abstain"

/-- `SnapshotInfo` from voting-utils.ts. -/
structure SnapshotInfo where
  root : String
  length : Nat
  block_height : Nat
deriving DecidableEq, Repr

/-- `SnapshotAndState` from voting-utils.ts; `snapshot` is optional to model
the runtime truthiness check `proposal.snapshot_and_state?.snapshot`. -/
structure SnapshotAndState where
  snapshot : Option SnapshotInfo
  timestamp_ns : Option String := none
  total_venear : Option String := none
deriving DecidableEq, Repr

/-- `ProposalData` from voting-utils.ts (fields the pipeline reads). -/
structure ProposalData where
  id : Option String := none
  title : Option String := none
  description : Option String := none
  link : Option String := none
  proposer_id : Option String := none
  voting_options : Option (List String) := none
  status : Option String := none
  voting_start_time_ns : Option String := none
  voting_duration_ns : Option String := none
  snapshot_and_state : Option SnapshotAndState := none
deriving DecidableEq, Repr

/-! ### Chain read/verify protocol (src/src/voting-utils.ts) -/

/-- `mapVoteChoiceToIndex` from voting-utils.ts. The selected option is the
runtime string of the vote choice; only it is lower-cased, while each entry
of the option list is trimmed and lower-cased before comparison. Falsy
(empty) option entries are skipped. -/
def mapVoteChoiceToIndex (votingOptions : Option (List String))
    (selectedOption : String) : Except String Nat :=
  match votingOptions with
  | none => Except.error "Voting options are not available for this proposal"
  | some opts =>
    if opts.length == 0 then
      Except.error "Voting options are not available for this proposal"
    else
      let normalizedChoice := toLowerStr selectedOption
      match opts.findIdx? (fun opt =>
          !(strEmpty opt) && toLowerStr (trimStr opt) == normalizedChoice) with
      | some index => Except.ok index
      | none =>
        Except.error
          ("Selected option \"" ++ selectedOption ++ "\" not found in voting options")

/-- Result record of `checkVoteRecordedOnChain`. -/
structure RecordedCheck where
  recorded : Bool
  verified : Bool
deriving DecidableEq, Repr

/-- Outcome of one `get_vote` RPC attempt inside `checkVoteRecordedOnChain`:
the HTTP response was not ok, the fetch itself threw, the RPC result field
was missing, the returned bytes failed to parse as JSON, or they parsed to
a null / non-null vote. -/
inductive VoteQueryOutcome
  | httpError
  | fetchFailed
  | noResult
  | parseFailure
  | voteNull
  | voteFound
deriving DecidableEq, Repr

/-- Delay inserted before retry attempt `attempt` in
`checkVoteRecordedOnChain` (300ms before attempt 1, 500ms otherwise). -/
def voteCheckDelay (attempt : Nat) : Nat :=
  if attempt == 1 then 300 else 500

/-- Trace of one run of `checkVoteRecordedOnChain`: final result, number of
attempts actually made, and the delays slept between attempts. -/
structure CheckRun where
  result : RecordedCheck
  attempts : Nat
  delays : List Nat
deriving DecidableEq, Repr

/-- The retry loop of `checkVoteRecordedOnChain` from voting-utils.ts,
starting at `attempt` with `remaining` iterations left (the source loop runs
`attempt = 0 .. maxRetries`). HTTP/fetch errors and missing/null votes
continue to the next attempt unless this is the last one; a parse failure
returns `{recorded:false, verified:false}` at once; a non-null parsed vote
returns `{recorded:true, verified:true}` at once. -/
def checkFrom (o : Nat → VoteQueryOutcome) : Nat → Nat → CheckRun
  | _, 0 => ⟨⟨false, false⟩, 0, []⟩
  | attempt, remaining + 1 =>
    let del : List Nat := if attempt == 0 then [] else [voteCheckDelay attempt]
    let isLast := remaining == 0
    let stop (r : RecordedCheck) : CheckRun := ⟨r, 1, del⟩
    let next : CheckRun :=
      let r := checkFrom o (attempt + 1) remaining
      ⟨r.result, r.attempts + 1, del ++ r.delays⟩
    match o attempt with
    | VoteQueryOutcome.voteFound => stop ⟨true, true⟩
    | VoteQueryOutcome.parseFailure => stop ⟨false, false⟩
    | VoteQueryOutcome.httpError => if isLast then stop ⟨false, false⟩ else next
    | VoteQueryOutcome.fetchFailed => if isLast then stop ⟨false, false⟩ else next
    | VoteQueryOutcome.noResult => if isLast then stop ⟨false, true⟩ else next
    | VoteQueryOutcome.voteNull => if isLast then stop ⟨false, true⟩ else next

/-- `checkVoteRecordedOnChain` from voting-utils.ts, over the outcome of
each RPC attempt (the source default is `maxRetries = 2`, i.e. 3 attempts). -/
def checkVoteRecordedOnChain (o : Nat → VoteQueryOutcome) (maxRetries : Nat) :
    CheckRun :=
  checkFrom o 0 (maxRetries + 1)

/-- `validateProposalStatus` from voter.ts: a missing (or falsy empty)
status and `Voting` are legal; `Approved` and `Finished` give dedicated
errors; anything else a generic one. -/
def validateProposalStatus (proposal : ProposalData) : Except String Unit :=
  match proposal.status with
  | none => Except.ok ()
  | some s =>
    if strEmpty s || s == "Voting" then Except.ok ()
    else if s == "Approved" then Except.error "Voting has not started yet"
    else if s == "Finished" then Except.error "Voting has already ended"
    else Except.error ("Cannot vote on proposal: status is " ++ s)

/-! ### Decision engine state (src/src/voter.ts)

JS `Map` state becomes insertion-ordered association lists; `Date` values
become naturals; every network interaction is an oracle value, and each one
performed is recorded in an effect trace. -/

/-- `ExecutionResult` from voter.ts. -/
structure ExecutionResult where
  action : String
  transactionHash : Option String := none
  timestamp : Nat
  error : Option String := none
  alreadyVoted : Bool := false
deriving DecidableEq, Repr

/-- `ExecutionStatus` from voter.ts (the idempotency record). -/
structure ExecutionStatus where
  executed : Bool
  executionTxHash : Option String := none
  executedAt : Option Nat := none
  success : Bool
  executionError : Option String := none
  attemptedAt : Option Nat := none
  alreadyVoted : Bool := false
deriving DecidableEq, Repr

/-- `VoteDecision` from voter.ts. -/
structure VoteDecision where
  proposalId : String
  reasons : List String
  timestamp : Nat
  executionResult : Option ExecutionResult := none
  selectedOption : Option VoteOption := none
deriving DecidableEq, Repr

/-- JS `Map.set`: replace in place when the key exists (preserving
insertion order), else append. -/
def setEntry : List (String × α) → String → α → List (String × α)
  | [], k, v => [(k, v)]
  | e :: rest, k, v =>
    if e.1 == k then (k, v) :: rest else e :: setEntry rest k v

/-- JS `Map.delete`. -/
def removeEntry (m : List (String × α)) (k : String) : List (String × α) :=
  m.filter (fun e => !(e.1 == k))

/-- First entry with minimal time key (what the stable ascending sort by
time followed by `[0]` selects in the trim helpers). -/
def oldestEntry (time : α → Nat) : List (String × α) → Option (String × α)
  | [] => none
  | e :: rest =>
    some (rest.foldl
      (fun best cur => if time cur.2 < time best.2 then cur else best) e)

/-- The two bounded maps of the `Voter` class. -/
structure VoterState where
  voteHistory : List (String × VoteDecision) := []
  executionResults : List (String × ExecutionStatus) := []
deriving DecidableEq, Repr

/-- `isProposalExecuted` from voter.ts. -/
def isProposalExecuted (st : VoterState) (proposalId : String) : Bool :=
  match List.lookup proposalId st.executionResults with
  | some result => result.executed
  | none => false

/-- Time key used by `trimExecutionResults`
(`executedAt || attemptedAt || 0`). -/
def executionTime (s : ExecutionStatus) : Nat :=
  s.executedAt.getD (s.attemptedAt.getD 0)

/-- `trimExecutionResults` from voter.ts: past 1000 entries, evict the
oldest by `executedAt || attemptedAt || 0`. -/
def trimExecutionResults (m : List (String × ExecutionStatus)) :
    List (String × ExecutionStatus) :=
  if 1000 < m.length then
    match oldestEntry executionTime m with
    | some (k, _) => removeEntry m k
    | none => m
  else m

/-- The eviction step of `saveResult`: past 1000 entries, evict the oldest
decision by timestamp. -/
def trimVoteHistory (m : List (String × VoteDecision)) :
    List (String × VoteDecision) :=
  if 1000 < m.length then
    match oldestEntry VoteDecision.timestamp m with
    | some (k, _) => removeEntry m k
    | none => m
  else m

/-- `saveResult` from voter.ts: build the decision, store it in the history,
apply both eviction disciplines, return the decision and the new state
(logging elided). -/
def saveResult (st : VoterState) (proposalId : String) (reasons : List String)
    (selectedOption : Option VoteOption) (now : Nat) :
    VoteDecision × VoterState :=
  let result : VoteDecision :=
    { proposalId := proposalId, reasons := reasons, timestamp := now,
      selectedOption := selectedOption }
  let hist := trimVoteHistory (setEntry st.voteHistory proposalId result)
  (result,
   { voteHistory := hist,
     executionResults := trimExecutionResults st.executionResults })

/-- `recordExecutionFailure` from voter.ts. -/
def recordExecutionFailure (st : VoterState) (proposalId : String)
    (errorMessage : String) (now : Nat) : VoterState :=
  let entry : ExecutionStatus :=
    { executed := false, success := false,
      executionError := some errorMessage,
      attemptedAt := some now, alreadyVoted := false }
  { st with executionResults :=
      trimExecutionResults (setEntry st.executionResults proposalId entry) }

/-- The AI capability's parsed verdict (`askAI` result). -/
structure AIDecision where
  reasons : List String
  selectedOption : VoteOption
deriving DecidableEq, Repr

/-- Network / capability interactions a run may perform, in order. -/
inductive Effect
  | aiCall
  | fetchProposalCall
  | accountIdCall
  | checkVoteCall
  | castVoteCall (option : VoteOption)
deriving DecidableEq, Repr

/-- Oracle outcomes for every external call a single pipeline run can make:
the AI verdict, `queuedAgentAccountId().catch(() => null)`, the
`fetchProposalInfo` result, the per-attempt `get_vote` outcomes, the
`castVote` submission result (tx hash option, or a thrown message), and
the current clock. -/
structure Oracles where
  ai : Except String AIDecision
  accountId : Option String := none
  fetchInfo : Except String ProposalData
  voteQuery : Nat → VoteQueryOutcome
  castVoteResult : Except String (Option String)
  now : Nat

/-- `checkIfAlreadyVoted` from voter.ts: run the bounded verification
(source default `maxRetries = 2`); an unverified result conservatively
counts as not voted. -/
def checkIfAlreadyVoted (o : Oracles) : Bool :=
  let r := (checkVoteRecordedOnChain o.voteQuery 2).result
  if !r.verified then false else r.recorded

/-- `voteOnProposal` from voter.ts. Guards run in source order: configured
contract, the idempotency record, proposal completeness (refetch when the
supplied proposal lacks options or snapshot container), status validation,
the on-chain already-voted probe, then the `castVote` submission whose
"Already voted" failure is converted into a successful `alreadyVoted`
outcome. The effect trace lists each queued-signer / RPC interaction made. -/
def voteOnProposal (votingContractId : Option String) (st : VoterState)
    (o : Oracles) (proposalId : String) (selectedOption : VoteOption)
    (proposal : Option ProposalData) :
    Except String ExecutionResult × VoterState × List Effect :=
  match votingContractId with
  | none => (Except.error "Voting contract ID is not configured", st, [])
  | some _ =>
    if isProposalExecuted st proposalId then
      (Except.error ("Proposal " ++ proposalId ++ " already voted"), st, [])
    else
      let needsFullDetails : Bool :=
        match proposal with
        | none => true
        | some p => p.voting_options.isNone || p.snapshot_and_state.isNone
      let fetched : Except String ProposalData × List Effect :=
        if needsFullDetails then (o.fetchInfo, [Effect.fetchProposalCall])
        else
          match proposal with
          | some p => (Except.ok p, [])
          | none => (o.fetchInfo, [Effect.fetchProposalCall])
      match fetched with
      | (Except.error msg, effs) => (Except.error msg, st, effs)
      | (Except.ok details, effs0) =>
        match validateProposalStatus details with
        | Except.error msg => (Except.error msg, st, effs0)
        | Except.ok _ =>
          let effs1 := effs0 ++ [Effect.accountIdCall, Effect.checkVoteCall]
          if checkIfAlreadyVoted o then
            (Except.error ("Already voted on proposal " ++ proposalId), st, effs1)
          else
            let effs2 := effs1 ++ [Effect.castVoteCall selectedOption]
            let finish (tx : Option String) (already : Bool) :
                Except String ExecutionResult × VoterState × List Effect :=
              let res : ExecutionResult :=
                { action := "succeeded", transactionHash := tx,
                  timestamp := o.now, alreadyVoted := already }
              let entry : ExecutionStatus :=
                { executed := true, executionTxHash := tx,
                  executedAt := some o.now, success := true,
                  alreadyVoted := already }
              (Except.ok res,
               { st with executionResults := setEntry st.executionResults proposalId entry },
               effs2)
            match o.castVoteResult with
            | Except.ok tx => finish tx false
            | Except.error msg =>
              if containsSubstr msg "Already voted" then finish none true
              else (Except.error msg, st, effs2)

/-- `executeVote` from voter.ts. A decision without a selected option is
returned untouched. On submission success the enriched decision is stored;
on failure the execution record is overwritten with a failure entry whose
`alreadyVoted` flag probes the message for "Already voted", and the failure
reason is appended. In the source the decision object in `voteHistory` is
the same object being mutated, so the history entry reflects the updated
reasons in both branches; the embedding writes it back explicitly. -/
def executeVote (votingContractId : Option String) (st : VoterState)
    (o : Oracles) (result : VoteDecision) (proposal : Option ProposalData) :
    VoteDecision × VoterState × List Effect :=
  match result.selectedOption with
  | none => (result, st, [])
  | some opt =>
    match voteOnProposal votingContractId st o result.proposalId opt proposal with
    | (Except.ok er, st1, effs) =>
      let reasons1 := result.reasons ++ ["Autonomous vote submitted: " ++ opt.str]
      let result1 := { result with executionResult := some er, reasons := reasons1 }
      (result1,
       { st1 with voteHistory := setEntry st1.voteHistory result.proposalId result1 },
       effs)
    | (Except.error msg, st1, effs) =>
      let result1 :=
        { result with reasons := result.reasons ++ ["Voting failed: " ++ msg] }
      let entry : ExecutionStatus :=
        { executed := false, executionError := some msg, success := false,
          attemptedAt := some o.now,
          alreadyVoted := containsSubstr msg "Already voted" }
      (result1,
       { st1 with
         executionResults := setEntry st1.executionResults result.proposalId entry,
         voteHistory := setEntry st1.voteHistory result.proposalId result1 },
       effs)

/-- The non-cached continuation of `evaluateProposal`: ask the AI, persist
the decision, and drive execution; an AI failure records a no-decision
outcome instead. -/
def evaluateFresh (votingContractId : Option String) (st : VoterState)
    (o : Oracles) (proposalId : String) (proposal : ProposalData) :
    VoteDecision × VoterState × List Effect :=
  match o.ai with
  | Except.ok dec =>
    let sr := saveResult st proposalId dec.reasons (some dec.selectedOption) o.now
    let ev := executeVote votingContractId sr.2 o sr.1 (some proposal)
    (ev.1, ev.2.1, Effect.aiCall :: ev.2.2)
  | Except.error msg =>
    let sr := saveResult st proposalId ["AI evaluation error: " ++ msg] none o.now
    (sr.1, sr.2, [Effect.aiCall])

/-- `evaluateProposal` from voter.ts: when a decision already exists and
either the execution record shows `executed=true` or the decision carries a
selected option, return the cached decision with no calls; otherwise run
the fresh evaluation. -/
def evaluateProposal (votingContractId : Option String) (st : VoterState)
    (o : Oracles) (proposalId : String) (proposal : ProposalData) :
    VoteDecision × VoterState × List Effect :=
  match List.lookup proposalId st.voteHistory with
  | some existingDecision =>
    if isProposalExecuted st proposalId || existingDecision.selectedOption.isSome then
      (existingDecision, st, [])
    else evaluateFresh votingContractId st o proposalId proposal
  | none => evaluateFresh votingContractId st o proposalId proposal

/-- `recordManualVote` from voter.ts: persist the supplied decision and run
the same execution path, bypassing the AI. -/
def recordManualVote (votingContractId : Option String) (st : VoterState)
    (o : Oracles) (proposalId : String) (selectedOption : VoteOption)
    (reason : Option String) (proposal : Option ProposalData) :
    VoteDecision × VoterState × List Effect :=
  let reasons := [reason.getD ("Manual vote recorded: " ++ selectedOption.str)]
  let sr := saveResult st proposalId reasons (some selectedOption) o.now
  executeVote votingContractId sr.2 o sr.1 proposal

/-! ### AI response parsing (src/src/voter.ts, parseAIResponse)

`response.match(/\x7b[\s\S]*\x7d/)` and `JSON.parse` are JS builtins. The
regex is modelled exactly (greedy: first opening brace to last closing
brace). `JSON.parse` is modelled on the full JSON grammar of the matched
region: objects (arbitrarily nested), arrays, string literals with every
escape sequence decoded and raw control characters rejected, numbers per
the JSON number grammar, and the three keyword literals. Two
simplifications no theorem touches: a `\u` escape denoting a lone
surrogate goes through `Char.ofNat`'s fallback instead of an unpaired
UTF-16 code unit, and numeric tokens interpolated into a reason string are
kept verbatim instead of being re-printed through JS number formatting. -/

/-- A parsed JSON value: a string, a number/true/false/null kept as its
token text, an array, or a nested object. -/
inductive JVal
  | str (s : String)
  | raw (t : String)
  | arr (xs : List JVal)
  | obj (fields : List (String × JVal))
deriving Repr

/-- JSON insignificant whitespace. -/
def isJsonWs (c : Char) : Bool :=
  c == ' ' || c == '\n' || c == '\t' || c == '\r'

/-- Drop leading JSON whitespace. -/
def skipWs : List Char → List Char
  | [] => []
  | c :: cs => if isJsonWs c then skipWs cs else c :: cs

/-- Value of a hexadecimal digit. -/
def hexVal (c : Char) : Option Nat :=
  if c.isDigit then some (c.toNat - 48)
  else if 97 ≤ c.toNat && c.toNat ≤ 102 then some (c.toNat - 87)
  else if 65 ≤ c.toNat && c.toNat ≤ 70 then some (c.toNat - 55)
  else none

/-- Decode one JSON string escape (positioned after the backslash). -/
def escapeChar : List Char → Option (Char × List Char)
  | [] => none
  | e :: cs =>
    if e == '"' then some ('"', cs)
    else if e == '\\' then some ('\\', cs)
    else if e == '/' then some ('/', cs)
    else if e == 'b' then some ('\x08', cs)
    else if e == 'f' then some ('\x0c', cs)
    else if e == 'n' then some ('\n', cs)
    else if e == 'r' then some ('\r', cs)
    else if e == 't' then some ('\t', cs)
    else if e == 'u' then
      match cs with
      | h1 :: h2 :: h3 :: h4 :: cs4 =>
        (match hexVal h1, hexVal h2, hexVal h3, hexVal h4 with
         | some a, some b, some n3, some d =>
           some (Char.ofNat (((a * 16 + b) * 16 + n3) * 16 + d), cs4)
         | _, _, _, _ => none)
      | _ => none
    else none

/-- Scan a JSON string literal body up to its closing quote: escape
sequences are decoded, raw control characters (below U+0020) are
rejected. -/
def scanStrChars : Nat → List Char → Option (List Char × List Char)
  | 0, _ => none
  | _, [] => none
  | fuel + 1, c :: cs =>
    if c == '"' then some ([], cs)
    else if c == '\\' then
      match escapeChar cs with
      | some (ch, rest) =>
        (match scanStrChars fuel rest with
         | some (str2, tail) => some (ch :: str2, tail)
         | none => none)
      | none => none
    else if c.toNat < 32 then none
    else
      match scanStrChars fuel cs with
      | some (str2, tail) => some (c :: str2, tail)
      | none => none

/-- Exponent tail of a JSON number: empty, or e/E with an optional sign
and at least one digit ending the token. -/
def jsonExpOk : List Char → Bool
  | [] => true
  | c :: rest =>
    (c == 'e' || c == 'E') &&
    (let rest2 :=
       match rest with
       | d :: ds => if d == '+' || d == '-' then ds else d :: ds
       | [] => []
     !rest2.isEmpty && rest2.all Char.isDigit)

/-- Fraction-and-exponent tail of a JSON number. -/
def jsonFracExpOk : List Char → Bool
  | [] => true
  | '.' :: rest =>
    let ds := rest.takeWhile Char.isDigit
    !ds.isEmpty && jsonExpOk (rest.dropWhile Char.isDigit)
  | cs => jsonExpOk cs

/-- The JSON number grammar: optional minus, `0` or a nonzero-led digit
run, optional fraction, optional exponent. -/
def jsonNumberOk (t : List Char) : Bool :=
  let cs :=
    match t with
    | '-' :: rest => rest
    | _ => t
  match cs with
  | [] => false
  | '0' :: rest => jsonFracExpOk rest
  | c :: _ => c.isDigit && jsonFracExpOk (cs.dropWhile Char.isDigit)

/-- Whether a bare token is a JSON scalar literal (number/true/false/null). -/
def rawLitOk (t : String) : Bool :=
  t == "true" || t == "false" || t == "null" || jsonNumberOk t.toList

/-- Split off a bare scalar token. -/
def rawToken (l : List Char) : String × List Char :=
  let tok := l.takeWhile fun c => !(c == ',' || c == '}' || c == ']' || isJsonWs c)
  (String.mk tok, l.drop tok.length)

mutual

/-- Parse one JSON value (string, scalar literal, array, or object). Fuel
decreases on every entry; `parseJson` supplies enough for any region. -/
def parseValue : Nat → List Char → Option (JVal × List Char)
  | 0, _ => none
  | fuel + 1, l =>
    match l with
    | '"' :: rest =>
      (match scanStrChars fuel rest with
       | some (str2, r) => some (JVal.str (String.mk str2), r)
       | none => none)
    | '[' :: rest => parseArr fuel rest
    | '{' :: rest => parseObjBody fuel rest
    | _ =>
      let tr := rawToken l
      if rawLitOk tr.1 then some (JVal.raw tr.1, tr.2) else none

/-- Parse an array body, positioned after `[`. -/
def parseArr : Nat → List Char → Option (JVal × List Char)
  | 0, _ => none
  | fuel + 1, l =>
    match skipWs l with
    | ']' :: tail => some (JVal.arr [], tail)
    | l1 =>
      match parseArrItems fuel l1 with
      | some (xs, tail) => some (JVal.arr xs, tail)
      | none => none

/-- Parse one-or-more comma-separated array items, ending at `]`. -/
def parseArrItems : Nat → List Char → Option (List JVal × List Char)
  | 0, _ => none
  | fuel + 1, l =>
    match parseValue fuel (skipWs l) with
    | none => none
    | some (v, r1) =>
      match skipWs r1 with
      | ',' :: r2 =>
        (match parseArrItems fuel r2 with
         | some (xs, tail) => some (v :: xs, tail)
         | none => none)
      | ']' :: tail => some ([v], tail)
      | _ => none

/-- Parse an object body, positioned after `\x7b`. -/
def parseObjBody : Nat → List Char → Option (JVal × List Char)
  | 0, _ => none
  | fuel + 1, l =>
    match skipWs l with
    | '}' :: tail => some (JVal.obj [], tail)
    | l1 =>
      match parseMembers fuel l1 with
      | some (ms, tail) => some (JVal.obj ms, tail)
      | none => none

/-- Parse one-or-more comma-separated object members, ending at `\x7d`. -/
def parseMembers : Nat → List Char → Option (List (String × JVal) × List Char)
  | 0, _ => none
  | fuel + 1, l =>
    match skipWs l with
    | '"' :: rest =>
      (match scanStrChars fuel rest with
       | none => none
       | some (k, r1) =>
         match skipWs r1 with
         | ':' :: r2 =>
           (match parseValue fuel (skipWs r2) with
            | none => none
            | some (v, r3) =>
              match skipWs r3 with
              | ',' :: r4 =>
                (match parseMembers fuel r4 with
                 | some (ms, tail) => some ((String.mk k, v) :: ms, tail)
                 | none => none)
              | '}' :: tail => some ([(String.mk k, v)], tail)
              | _ => none)
         | _ => none)
    | _ => none

end

/-- Model of `JSON.parse` applied to the matched region: a single object
(the region always starts at an opening brace) with nothing but whitespace
around it — `JSON.parse` rejects trailing text. The fuel bound covers any
nesting: at most three parser entries consume each character. -/
def parseJson (s : String) : Option (List (String × JVal)) :=
  match skipWs s.toList with
  | '{' :: rest =>
    (match parseObjBody (4 * s.toList.length + 4) rest with
     | some (JVal.obj ms, tail) =>
       if (skipWs tail).isEmpty then some ms else none
     | _ => none)
  | _ => none

/-- Field access on the parsed object; `JSON.parse` keeps the last of
duplicate keys. -/
def getField (obj : List (String × JVal)) (k : String) : Option JVal :=
  ((obj.filter fun e => e.1 == k).getLast?).map (fun e => e.2)

/-- Whether a (valid) JSON number token denotes zero: every mantissa digit
is 0 (an exponent cannot change that). -/
def numTokenZero (t : String) : Bool :=
  (t.toList.takeWhile fun c => !(c == 'e' || c == 'E')).all
    (fun c => c == '0' || c == '.' || c == '-')

/-- JS truthiness of a parsed JSON value: empty strings, false, null and
zero numbers are falsy; arrays and objects are always truthy. -/
def jvalTruthy : JVal → Bool
  | JVal.str s => !(strEmpty s)
  | JVal.raw t =>
    if t == "true" then true
    else if t == "false" || t == "null" then false
    else !(numTokenZero t)
  | JVal.arr _ => true
  | JVal.obj _ => true

mutual

/-- JS `String(value)` of a parsed JSON value: objects print as
"[object Object]", arrays join their elements with commas. -/
def jvalToString : JVal → String
  | JVal.str s => s
  | JVal.raw t => t
  | JVal.obj _ => "[object Object]"
  | JVal.arr xs => String.intercalate "," (jvalElems xs)

/-- One element under `Array.prototype.join`: null prints as the empty
string. -/
def jvalArrElem : JVal → String
  | JVal.str s => s
  | JVal.raw t => if t == "null" then "" else t
  | JVal.obj _ => "[object Object]"
  | JVal.arr xs => String.intercalate "," (jvalElems xs)

/-- Join-converted elements of an array. -/
def jvalElems : List JVal → List String
  | [] => []
  | v :: vs => jvalArrElem v :: jvalElems vs

end

/-- `normalizeOption` from parseAIResponse: falsy values give null, others
are stringified, trimmed, lower-cased and matched against the three vote
labels. -/
def normalizeOption : Option JVal → Option VoteOption
  | none => none
  | some v =>
    if !jvalTruthy v then none
    else
      let option := toLowerStr (trimStr (jvalToString v))
      if option == "for" then some VoteOption.For
      else if option == "against" then some VoteOption.Against
      else if option == "abstain" then some VoteOption.Abstain
      else none

/-- The greedy regex `/\x7b[\s\S]*\x7d/`: the substring from the first
opening brace to the last closing brace, when they occur in that order. -/
def jsonMatch (s : String) : Option String :=
  let cs := s.toList
  match cs.findIdx? (fun c => c == '{'), (cs.reverse.findIdx? (fun c => c == '}')) with
  | some i, some jr =>
    let j := cs.length - 1 - jr
    if i ≤ j then some (String.mk ((cs.drop i).take (j - i + 1))) else none
  | _, _ => none

/-- The `reason` binding of parseAIResponse:
`parsed.reason || (Array.isArray(parsed.reasons) ? parsed.reasons.join(" ") : "")`,
kept as the JS value it evaluates to (the join result is a string). -/
def extractReason (obj : List (String × JVal)) : JVal :=
  let fallback : JVal :=
    match getField obj "reasons" with
    | some (JVal.arr xs) => JVal.str (String.intercalate " " (jvalElems xs))
    | _ => JVal.str ""
  match getField obj "reason" with
  | some v => if jvalTruthy v then v else fallback
  | none => fallback

/-- `parseAIResponse` from voter.ts. When the brace regex matches, the
region is JSON-parsed: success reads `selected_option`/`selectedOption`/
`decision` (defaulting to Abstain) and the reason; a parse failure lands in
the catch block returning Abstain with a parse-failure reason. Only when
the regex does not match at all does the lexical keyword fallback scan the
lower-cased raw text, with precedence against, for, abstain, default
Abstain. -/
def parseAIResponse (response : String) : List String × VoteOption :=
  match jsonMatch response with
  | some region =>
    (match parseJson region with
     | none => (["Failed to parse AI response"], VoteOption.Abstain)
     | some parsed =>
       let selected :=
         match normalizeOption (getField parsed "selected_option") with
         | some v => some v
         | none =>
           match normalizeOption (getField parsed "selectedOption") with
           | some v => some v
           | none => normalizeOption (getField parsed "decision")
       let reason := extractReason parsed
       let option := selected.getD VoteOption.Abstain
       (["Vote: " ++ option.str,
         if jvalTruthy reason then "Reason: " ++ jvalToString reason
         else "Reason: Not provided"],
        option))
  | none =>
    let text := toLowerStr response
    let option :=
      if containsSubstr text "against" then VoteOption.Against
      else if containsSubstr text "for" then VoteOption.For
      else if containsSubstr text "abstain" then VoteOption.Abstain
      else VoteOption.Abstain
    (["Vote: " ++ option.str, "Reason: Could not parse structured JSON"], option)

/-! ### Event handler readiness polling (src/unnamed/part_000, handleVote) -/

/-- The progressive backoff schedule of `handleVote`. -/
def readinessDelays : List Nat := [0, 300, 500, 800, 1200]

/-- The readiness invariant checked by `handleVote`:
`!!proposal.snapshot_and_state?.snapshot` and a non-empty option list. -/
def proposalReady (p : ProposalData) : Bool :=
  (match p.snapshot_and_state with
   | some ss => ss.snapshot.isSome
   | none => false) &&
  (match p.voting_options with
   | some l => decide (0 < l.length)
   | none => false)

/-- The readiness polling loop of `handleVote`: fetch the proposal on each
attempt (the oracle gives each attempt's outcome), continue on fetch errors
and unready proposals, stop at the first ready one. Returns the found
proposal and the number of fetches made. -/
def readinessLoop (fetch : Nat → Except String ProposalData) :
    Nat → Nat → Option ProposalData × Nat
  | _, 0 => (none, 0)
  | attempt, remaining + 1 =>
    match fetch attempt with
    | Except.error _ =>
      let r := readinessLoop fetch (attempt + 1) remaining
      (r.1, r.2 + 1)
    | Except.ok p =>
      if proposalReady p then (some p, 1)
      else
        let r := readinessLoop fetch (attempt + 1) remaining
        (r.1, r.2 + 1)

/-- `handleVote` from src/unnamed/part_000: poll readiness up to 5 times;
when never ready, drop the event (warn) leaving the state untouched; when
ready and no decision is recorded yet, run `evaluateProposal`. The effect
trace starts with one `fetchProposalCall` per polling attempt. -/
def handleVote (votingContractId : Option String) (st : VoterState)
    (o : Oracles) (fetch : Nat → Except String ProposalData)
    (proposalId : String) : VoterState × List Effect :=
  let rl := readinessLoop fetch 0 readinessDelays.length
  let fetchEffs := List.replicate rl.2 Effect.fetchProposalCall
  match rl.1 with
  | none => (st, fetchEffs)
  | some p =>
    match List.lookup proposalId st.voteHistory with
    | some _ => (st, fetchEffs)
    | none =>
      let r := evaluateProposal votingContractId st o proposalId p
      (r.2.1, fetchEffs ++ r.2.2)

/-! ### Concrete sample inputs used by witnesses and counterexamples -/

/-- A fresh voter state (both maps empty). -/
def initialVoterState : VoterState := {}

/-- A snapshot descriptor as published by the contract. -/
def sampleSnapshotInfo : SnapshotInfo :=
  { root := "merkle-root", length := 3, block_height := 100 }

/-- A snapshot-and-state container holding the descriptor. -/
def sampleSnapshot : SnapshotAndState := { snapshot := some sampleSnapshotInfo }

/-- A canonical ready-to-vote proposal. -/
def sampleProposal : ProposalData :=
  { id := some "7", title := some "Fund infrastructure",
    description := some "Build tooling for the ecosystem",
    voting_options := some ["For", "Against", "Abstain"],
    status := some "Voting", snapshot_and_state := some sampleSnapshot }

/-- An execution record marking proposal success. -/
def executedEntry : ExecutionStatus :=
  { executed := true, success := true, executedAt := some 50 }

/-- A state whose idempotency record already shows proposal 7 executed. -/
def executedState : VoterState := { executionResults := [("7", executedEntry)] }

/-- A sample AI verdict. -/
def sampleAI : AIDecision :=
  { reasons := ["Vote: For", "Reason: clear benefit"],
    selectedOption := VoteOption.For }

/-- Benign oracle outcomes: AI succeeds, account id known, fetch succeeds,
no vote recorded on-chain, submission succeeds with a tx hash. -/
def sampleOracles : Oracles :=
  { ai := Except.ok sampleAI, accountId := some "ac-proxy.neargov.testnet",
    fetchInfo := Except.ok sampleProposal,
    voteQuery := fun _ => VoteQueryOutcome.noResult,
    castVoteResult := Except.ok (some "txhash"), now := 1700 }

/-- Oracles where the submission throws an already-voted error. -/
def alreadyVotedOracles : Oracles :=
  { sampleOracles with
    castVoteResult := Except.error "Smart contract panicked: Already voted" }

/-- The three C3 scenario operations: the second fails twice with a
network-timeout message, then succeeds. -/
def c3Items : List QueueItem :=
  [{ id := 1, script := [Outcome.success] },
   { id := 2, script := [Outcome.failure "network timeout",
                         Outcome.failure "network timeout", Outcome.success] },
   { id := 3, script := [Outcome.success] }]

/-- A queued item whose first invocation fails with a transient message. -/
def c4Item : QueueItem := { id := 9, script := [Outcome.failure "RPC network timeout"] }

/-- Attempt outcomes: two HTTP errors, then a successful query reporting no
vote. -/
def c5ErrorsThenNoResult : Nat → VoteQueryOutcome := fun i =>
  if i < 2 then VoteQueryOutcome.httpError else VoteQueryOutcome.noResult

/-- The execution-status entry `voteOnProposal`'s success path writes when
the submission reported the vote as already cast. -/
def alreadyVotedEntry (now : Nat) : ExecutionStatus :=
  { executed := true, executionTxHash := none, executedAt := some now,
    success := true, alreadyVoted := true }

/-- The execution result `voteOnProposal` returns in that case. -/
def alreadyVotedResult (now : Nat) : ExecutionResult :=
  { action := "succeeded", transactionHash := none, timestamp := now,
    alreadyVoted := true }

/-- The failure entry `executeVote` writes when the idempotency guard
rejects a re-execution attempt (its message has lower-case "already", so
the `alreadyVoted` probe for "Already voted" misses). -/
def reattemptFailureEntry (msg : String) (now : Nat) : ExecutionStatus :=
  { executed := false, success := false, executionError := some msg,
    attemptedAt := some now, alreadyVoted := false }

/-- Write an execution-status entry into the state (the shape of the map
update both success and failure paths perform). -/
def withExecEntry (st : VoterState) (proposalId : String)
    (entry : ExecutionStatus) : VoterState :=
  { st with executionResults := setEntry st.executionResults proposalId entry }

/-- A decision for proposal 7 carrying a selected option, as a manual vote
would persist it. -/
def c10Decision : VoteDecision :=
  { proposalId := "7", reasons := ["Manual vote recorded: For"],
    timestamp := 60, selectedOption := some VoteOption.For }

/-! ### Shared helper lemmas -/

/-- Looking up the key just written by `setEntry` yields the new value. -/
theorem lookup_setEntry_self (m : List (String × α)) (k : String) (v : α) :
    List.lookup k (setEntry m k v) = some v := by
  induction m with
  | nil => simp [setEntry, List.lookup]
  | cons e rest ih =>
    by_cases h : e.1 = k
    · simp [setEntry, h, List.lookup]
    · have hne : (e.1 == k) = false := by simp [h]
      have hne2 : (k == e.1) = false := by simp [Ne.symm h]
      cases e with
      | mk k0 v0 =>
        simp only [setEntry, hne, if_neg, Bool.false_eq_true, if_false]
        simpa [List.lookup, hne2] using ih

/-- `executeVote` on a decision with a selected option stores the returned
decision in the history, and the stored decision keeps that option. -/
theorem executeVote_sets_history (cfg : Option String) (st : VoterState)
    (o : Oracles) (result : VoteDecision) (proposal : Option ProposalData)
    (opt : VoteOption) (h : result.selectedOption = some opt) :
    List.lookup result.proposalId
        (executeVote cfg st o result proposal).2.1.voteHistory =
      some (executeVote cfg st o result proposal).1 ∧
    (executeVote cfg st o result proposal).1.selectedOption = some opt := by
  unfold executeVote
  rw [h]
  rcases hv : voteOnProposal cfg st o result.proposalId opt proposal with ⟨res, st1, effs⟩
  cases res with
  | ok er =>
    simp only [hv]
    exact ⟨lookup_setEntry_self _ _ _, trivial⟩
  | error msg =>
    simp only [hv]
    exact ⟨lookup_setEntry_self _ _ _, trivial⟩

/-- Cached short-circuit of `evaluateProposal`: an existing decision with a
selected option, or an executed record, is returned unchanged with no
calls. -/
theorem evaluateProposal_cached (cfg : Option String) (st : VoterState)
    (o : Oracles) (proposalId : String) (p : ProposalData) (d : VoteDecision)
    (hl : List.lookup proposalId st.voteHistory = some d)
    (hc : isProposalExecuted st proposalId = true ∨ d.selectedOption.isSome = true) :
    evaluateProposal cfg st o proposalId p = (d, st, []) := by
  unfold evaluateProposal
  rw [hl]
  rcases hc with h | h <;> simp [h]

/-- A fresh evaluation whose AI call succeeds leaves the produced decision
in the history, and that decision carries the AI's selected option. -/
theorem evaluateFresh_after (cfg : Option String) (st : VoterState)
    (o : Oracles) (proposalId : String) (p : ProposalData) (dec : AIDecision)
    (hai : o.ai = Except.ok dec) :
    List.lookup proposalId (evaluateFresh cfg st o proposalId p).2.1.voteHistory =
      some (evaluateFresh cfg st o proposalId p).1 ∧
    (evaluateFresh cfg st o proposalId p).1.selectedOption =
      some dec.selectedOption := by
  unfold evaluateFresh
  rw [hai]
  obtain ⟨hlk, hopt⟩ := executeVote_sets_history cfg
    (saveResult st proposalId dec.reasons (some dec.selectedOption) o.now).2 o
    (saveResult st proposalId dec.reasons (some dec.selectedOption) o.now).1
    (some p) dec.selectedOption rfl
  exact ⟨hlk, hopt⟩

/-- After any `evaluateProposal` run whose AI oracle succeeds, the history
holds the returned decision and it carries a selected option. -/
theorem evaluateProposal_establishes_cache (cfg : Option String)
    (st : VoterState) (o : Oracles) (proposalId : String) (p : ProposalData)
    (dec : AIDecision) (hai : o.ai = Except.ok dec) :
    List.lookup proposalId (evaluateProposal cfg st o proposalId p).2.1.voteHistory =
      some (evaluateProposal cfg st o proposalId p).1 ∧
    (isProposalExecuted (evaluateProposal cfg st o proposalId p).2.1 proposalId = true ∨
     (evaluateProposal cfg st o proposalId p).1.selectedOption.isSome = true) := by
  obtain ⟨hf1, hf2⟩ := evaluateFresh_after cfg st o proposalId p dec hai
  have hfresh :
      List.lookup proposalId (evaluateFresh cfg st o proposalId p).2.1.voteHistory =
        some (evaluateFresh cfg st o proposalId p).1 ∧
      (isProposalExecuted (evaluateFresh cfg st o proposalId p).2.1 proposalId = true ∨
       (evaluateFresh cfg st o proposalId p).1.selectedOption.isSome = true) :=
    ⟨hf1, Or.inr (by rw [hf2]; rfl)⟩
  unfold evaluateProposal
  split
  next d heq =>
    split
    next hcond =>
      simp only [Bool.or_eq_true] at hcond
      exact ⟨heq, hcond⟩
    next hcond => exact hfresh
  next heq => exact hfresh

/-- The readiness loop returns nothing when every polled attempt is an
error or an unready proposal. -/
theorem readinessLoop_none (fetch : Nat → Except String ProposalData) :
    ∀ (remaining attempt : Nat),
    (∀ i, attempt ≤ i → i < attempt + remaining →
      ∀ p, fetch i = Except.ok p → proposalReady p = false) →
    readinessLoop fetch attempt remaining = (none, remaining) := by
  intro remaining
  induction remaining with
  | zero => intro attempt _; rfl
  | succ n ih =>
    intro attempt h
    have hnext : ∀ i, attempt + 1 ≤ i → i < (attempt + 1) + n →
        ∀ p, fetch i = Except.ok p → proposalReady p = false := by
      intro i h1 h2 p hp
      exact h i (by omega) (by omega) p hp
    have hrec := ih (attempt + 1) hnext
    unfold readinessLoop
    rcases hf : fetch attempt with msg | p
    · simp [hrec]
    · have hr : proposalReady p = false :=
        h attempt (by omega) (by omega) p hf
      simp [hr, hrec]

/-! ### Claim theorems -/

/-- C1: for every proposal whose execution-status record shows
`executed=true` at the time of the call, a subsequent execution attempt via
`voteOnProposal` fails on the idempotency guard with the already-voted
error, leaves the state untouched, and performs no effect at all — in
particular no `castVote` submission and no queued signer call. -/
theorem c1_executed_guard_blocks_resubmission
    (c : String) (st : VoterState) (o : Oracles) (proposalId : String)
    (opt : VoteOption) (proposal : Option ProposalData)
    (h : isProposalExecuted st proposalId = true) :
    voteOnProposal (some c) st o proposalId opt proposal =
      (Except.error ("Proposal " ++ proposalId ++ " already voted"), st, []) := by
  simp [voteOnProposal, h]

/-- Witness for C1 at a concrete executed proposal. -/
theorem c1_executed_guard_blocks_resubmission_witness :
    voteOnProposal (some "vote.ballotbox.testnet") executedState sampleOracles
        "7" VoteOption.For none =
      (Except.error "Proposal 7 already voted", executedState, []) :=
  c1_executed_guard_blocks_resubmission "vote.ballotbox.testnet" executedState
    sampleOracles "7" VoteOption.For none (by decide)

/-- C2: evaluating a proposal twice without an intervening execution
failure returns the identical cached decision: the first conjunct runs
`evaluateProposal` twice (the first call's AI oracle succeeded, so its
decision carries a selected option) and the second call returns the first
call's decision, leaves the state unchanged and performs no call at all
(empty effect trace: no AI call, no execution); the second conjunct is the
general short-circuit — a recorded decision with a selected option, or an
execution record with `executed=true`, is returned unchanged. -/
theorem c2_second_evaluation_returns_cached_decision :
    (∀ (cfg : Option String) (st : VoterState) (o o2 : Oracles)
       (proposalId : String) (p : ProposalData) (dec : AIDecision),
       o.ai = Except.ok dec →
       evaluateProposal cfg (evaluateProposal cfg st o proposalId p).2.1 o2
           proposalId p =
         ((evaluateProposal cfg st o proposalId p).1,
          (evaluateProposal cfg st o proposalId p).2.1, [])) ∧
    (∀ (cfg : Option String) (st : VoterState) (o : Oracles)
       (proposalId : String) (p : ProposalData) (d : VoteDecision),
       List.lookup proposalId st.voteHistory = some d →
       (isProposalExecuted st proposalId = true ∨ d.selectedOption.isSome = true) →
       evaluateProposal cfg st o proposalId p = (d, st, [])) := by
  constructor
  · intro cfg st o o2 proposalId p dec hai
    obtain ⟨h1, h2⟩ :=
      evaluateProposal_establishes_cache cfg st o proposalId p dec hai
    exact evaluateProposal_cached cfg _ o2 proposalId p _ h1 h2
  · intro cfg st o proposalId p d hl hc
    exact evaluateProposal_cached cfg st o proposalId p d hl hc

/-- Witness for C2 at a concrete double evaluation from a fresh state. -/
theorem c2_second_evaluation_returns_cached_decision_witness :
    evaluateProposal (some "vote.ballotbox.testnet")
        (evaluateProposal (some "vote.ballotbox.testnet") initialVoterState
          sampleOracles "7" sampleProposal).2.1 sampleOracles "7" sampleProposal =
      ((evaluateProposal (some "vote.ballotbox.testnet") initialVoterState
          sampleOracles "7" sampleProposal).1,
       (evaluateProposal (some "vote.ballotbox.testnet") initialVoterState
          sampleOracles "7" sampleProposal).2.1, []) :=
  c2_second_evaluation_returns_cached_decision.1 (some "vote.ballotbox.testnet")
    initialVoterState sampleOracles sampleOracles "7" sampleProposal sampleAI rfl

/-- C3: three operations enqueued where the second fails twice with a
"network timeout" message and then succeeds: the queue completes all three
in their original relative order, invoking the second thunk exactly three
times (the retried item re-enters at the head, so the third cannot
overtake it), and the full FIFO event trace is as listed. -/
theorem c3_queue_fifo_retry_scenario :
    completionsOf (processQueue 10 c3Items) = [1, 2, 3] ∧
    attemptsOf 2 (processQueue 10 c3Items) = 3 ∧
    attemptsOf 1 (processQueue 10 c3Items) = 1 ∧
    attemptsOf 3 (processQueue 10 c3Items) = 1 ∧
    processQueue 10 c3Items =
      [QueueEvent.attempt 1 0, QueueEvent.resolved 1,
       QueueEvent.attempt 2 0, QueueEvent.attempt 2 1, QueueEvent.attempt 2 2,
       QueueEvent.resolved 2,
       QueueEvent.attempt 3 0, QueueEvent.resolved 3] := by
  decide

/-- C4: a queued operation that fails is re-queued at the head with an
incremented retry counter exactly when the retry count is under 2 and the
lower-cased error message bears one of the transient markers (nonce,
timeout, network, connection, timed out); in every other failure case the
caller's promise is rejected with the error. -/
theorem c4_requeue_iff_transient_and_under_retry_limit
    (now : Nat) (item : QueueItem) (msg : String)
    (h : itemOutcome item = Outcome.failure msg) :
    (processQueueItem now item =
        ItemStep.requeued { item with retryCount := item.retryCount + 1,
                                      timestamp := now } ↔
      item.retryCount < 2 ∧ shouldRetry msg = true) ∧
    (¬(item.retryCount < 2 ∧ shouldRetry msg = true) →
      processQueueItem now item = ItemStep.rejected item.id msg) ∧
    shouldRetry msg =
      (containsSubstr (toLowerStr msg) "nonce" ||
       containsSubstr (toLowerStr msg) "timeout" ||
       containsSubstr (toLowerStr msg) "network" ||
       containsSubstr (toLowerStr msg) "connection" ||
       containsSubstr (toLowerStr msg) "timed out") := by
  have hkey : processQueueItem now item =
      if item.retryCount < 2 && shouldRetry msg then
        ItemStep.requeued { item with retryCount := item.retryCount + 1,
                                      timestamp := now }
      else ItemStep.rejected item.id msg := by
    unfold processQueueItem
    rw [h]
  refine ⟨?_, ?_, rfl⟩
  · rw [hkey]
    by_cases h2 : item.retryCount < 2 <;> by_cases h3 : shouldRetry msg = true <;>
      simp [h2, h3]
  · intro hn
    rw [hkey]
    rcases Decidable.not_and_iff_or_not.mp hn with h2 | h3
    · simp [h2]
    · simp [h3, Bool.not_eq_true _ ▸ h3]

/-- Witness for C4: a first-invocation transient failure is re-queued with
retry count 1. -/
theorem c4_requeue_iff_transient_witness :
    processQueueItem 5 c4Item =
      ItemStep.requeued { c4Item with retryCount := 1, timestamp := 5 } :=
  (c4_requeue_iff_transient_and_under_retry_limit 5 c4Item "RPC network timeout"
    rfl).1.mpr ⟨by decide, by decide⟩

/-- C5 counterexample: the claim says `{recorded:false, verified:true}` is
returned only when the attempts succeeded and consistently returned no
vote, but two failing HTTP attempts followed by a final successful
empty-result attempt also return `{recorded:false, verified:true}` (each
non-final error merely continues the loop). -/
theorem c5_verified_true_despite_errors_counterexample :
    (checkVoteRecordedOnChain c5ErrorsThenNoResult 2).result =
      { recorded := false, verified := true } ∧
    c5ErrorsThenNoResult 0 = VoteQueryOutcome.httpError ∧
    c5ErrorsThenNoResult 1 = VoteQueryOutcome.httpError := by
  decide

/-- C5 amended: with `maxRetries = 2` (at most 3 attempts, delays 300ms
then 500ms): every attempt erroring yields `{recorded:false,
verified:false}`; a reached non-null parsed vote immediately yields
`{recorded:true, verified:true}`; `{recorded:false, verified:true}` is
returned exactly from a final attempt that succeeded with no vote — but
earlier attempts need not have succeeded, only never produced a parsed
vote or a parse failure. -/
theorem c5_check_vote_recorded_amended :
    (∀ o : Nat → VoteQueryOutcome,
       (∀ i, i ≤ 2 →
         o i = VoteQueryOutcome.httpError ∨ o i = VoteQueryOutcome.fetchFailed) →
       (checkVoteRecordedOnChain o 2).result =
         { recorded := false, verified := false }) ∧
    (∀ (o : Nat → VoteQueryOutcome) (k : Nat), k ≤ 2 →
       o k = VoteQueryOutcome.voteFound →
       (∀ i, i < k → o i ≠ VoteQueryOutcome.voteFound ∧
                     o i ≠ VoteQueryOutcome.parseFailure) →
       (checkVoteRecordedOnChain o 2).result =
         { recorded := true, verified := true }) ∧
    (∀ o : Nat → VoteQueryOutcome,
       (checkVoteRecordedOnChain o 2).result =
         { recorded := false, verified := true } →
       (o 2 = VoteQueryOutcome.noResult ∨ o 2 = VoteQueryOutcome.voteNull) ∧
       (o 0 ≠ VoteQueryOutcome.voteFound ∧ o 0 ≠ VoteQueryOutcome.parseFailure) ∧
       (o 1 ≠ VoteQueryOutcome.voteFound ∧ o 1 ≠ VoteQueryOutcome.parseFailure)) ∧
    (∀ o : Nat → VoteQueryOutcome,
       (checkVoteRecordedOnChain o 2).attempts ≤ 3 ∧
       (checkVoteRecordedOnChain o 2).delays =
         List.take ((checkVoteRecordedOnChain o 2).attempts - 1) [300, 500]) := by
  refine ⟨?_, ?_, ?_, ?_⟩
  · intro o h
    have h0 := h 0 (by omega)
    have h1 := h 1 (by omega)
    have h2 := h 2 (by omega)
    rcases h0 with h0 | h0 <;> rcases h1 with h1 | h1 <;> rcases h2 with h2 | h2 <;>
      simp [checkVoteRecordedOnChain, checkFrom, h0, h1, h2]
  · intro o k hk hfound hprev
    interval_cases k
    · simp [checkVoteRecordedOnChain, checkFrom, hfound]
    · obtain ⟨ha0, hb0⟩ := hprev 0 (by omega)
      cases ho0 : o 0 <;> simp_all [checkVoteRecordedOnChain, checkFrom]
    · obtain ⟨ha0, hb0⟩ := hprev 0 (by omega)
      obtain ⟨ha1, hb1⟩ := hprev 1 (by omega)
      cases ho0 : o 0 <;> cases ho1 : o 1 <;>
        simp_all [checkVoteRecordedOnChain, checkFrom]
  · intro o hres
    cases ho0 : o 0 <;> cases ho1 : o 1 <;> cases ho2 : o 2 <;>
      simp_all [checkVoteRecordedOnChain, checkFrom]
  · intro o
    cases ho0 : o 0 <;> cases ho1 : o 1 <;> cases ho2 : o 2 <;>
      simp [checkVoteRecordedOnChain, checkFrom, voteCheckDelay, ho0, ho1, ho2]

/-- Witness for C5 amended: all attempts failing with HTTP errors yields
the fully-unverified result. -/
theorem c5_check_vote_recorded_amended_witness :
    (checkVoteRecordedOnChain (fun _ => VoteQueryOutcome.httpError) 2).result =
      { recorded := false, verified := false } :=
  c5_check_vote_recorded_amended.1 (fun _ => VoteQueryOutcome.httpError)
    (fun _ _ => Or.inl rfl)

/-- C6 counterexample: the claim predicts the keyword fallback for every
response from which no JSON object can be parsed, so an unparsable
response containing "against" should yield Against; but when the brace
regex matches a region that fails JSON parsing, the catch block returns
Abstain with a parse-failure reason instead of scanning keywords. -/
theorem c6_unparsable_json_region_counterexample :
    jsonMatch "\x7boops\x7d vote against" = some "\x7boops\x7d" ∧
    (parseJson "\x7boops\x7d").isNone = true ∧
    containsSubstr (toLowerStr "\x7boops\x7d vote against") "against" = true ∧
    parseAIResponse "\x7boops\x7d vote against" =
      (["Failed to parse AI response"], VoteOption.Abstain) := by
  decide

/-- C6 amended: the lexical keyword fallback (against, then for, then
abstain precedence, defaulting to Abstain) applies exactly to responses in
which the brace regex finds no JSON-object-shaped region — such responses
containing "against" yield Against; when a region exists but fails JSON
parsing, the parser instead returns Abstain with a parse-failure reason. -/
theorem c6_parse_fallback_amended :
    (∀ s : String, jsonMatch s = none →
       containsSubstr (toLowerStr s) "against" = true →
       (parseAIResponse s).2 = VoteOption.Against) ∧
    (∀ s : String, jsonMatch s = none →
       containsSubstr (toLowerStr s) "against" = false →
       containsSubstr (toLowerStr s) "for" = true →
       (parseAIResponse s).2 = VoteOption.For) ∧
    (∀ s : String, jsonMatch s = none →
       containsSubstr (toLowerStr s) "against" = false →
       containsSubstr (toLowerStr s) "for" = false →
       (parseAIResponse s).2 = VoteOption.Abstain) ∧
    (∀ s region : String, jsonMatch s = some region → parseJson region = none →
       parseAIResponse s = (["Failed to parse AI response"], VoteOption.Abstain)) := by
  refine ⟨?_, ?_, ?_, ?_⟩
  · intro s hm ha
    simp [parseAIResponse, hm, ha]
  · intro s hm ha hf
    simp [parseAIResponse, hm, ha, hf]
  · intro s hm ha hf
    by_cases hab : containsSubstr (toLowerStr s) "abstain" = true <;>
      simp [parseAIResponse, hm, ha, hf, hab]
  · intro s region hm hp
    simp [parseAIResponse, hm, hp]

/-- Witness for C6 amended: a brace-free response containing "against"
yields Against through the keyword fallback. -/
theorem c6_parse_fallback_amended_witness :
    (parseAIResponse "i will vote against this").2 = VoteOption.Against :=
  c6_parse_fallback_amended.1 "i will vote against this" (by decide) (by decide)

/-- C7: when every one of the 5 readiness-polling attempts (delays 0, 300,
500, 800, 1200 ms) yields a fetch error or a proposal lacking its snapshot
or a non-empty option list, `handleVote` drops the event: the state is
unchanged (no decision is created) and the only effects are the 5 fetches —
in particular the AI capability is never called. -/
theorem c7_unready_proposal_no_ai_call
    (cfg : Option String) (st : VoterState) (o : Oracles)
    (fetch : Nat → Except String ProposalData) (proposalId : String)
    (h : ∀ i, i < 5 → ∀ p, fetch i = Except.ok p → proposalReady p = false) :
    handleVote cfg st o fetch proposalId =
      (st, List.replicate 5 Effect.fetchProposalCall) ∧
    Effect.aiCall ∉ (handleVote cfg st o fetch proposalId).2 ∧
    readinessDelays = [0, 300, 500, 800, 1200] := by
  have hloop : readinessLoop fetch 0 readinessDelays.length = (none, 5) := by
    have hmain := readinessLoop_none fetch 5 0
      (by intro i h1 h2 p hp; exact h i (by omega) p hp)
    simpa [readinessDelays] using hmain
  have hres : handleVote cfg st o fetch proposalId =
      (st, List.replicate 5 Effect.fetchProposalCall) := by
    unfold handleVote
    rw [hloop]
  refine ⟨hres, ?_, rfl⟩
  rw [hres]
  simp

/-- Witness for C7: five straight RPC failures drop the event. -/
theorem c7_unready_proposal_no_ai_call_witness :
    handleVote (some "vote.ballotbox.testnet") initialVoterState sampleOracles
        (fun _ => Except.error "RPC request failed: 500") "7" =
      (initialVoterState, List.replicate 5 Effect.fetchProposalCall) :=
  (c7_unready_proposal_no_ai_call (some "vote.ballotbox.testnet")
     initialVoterState sampleOracles (fun _ => Except.error "RPC request failed: 500")
     "7" (fun _ _ _ hp => nomatch hp)).1

/-- C8: when the `castVote` submission fails with a message containing
"Already voted", `voteOnProposal` treats the attempt as a success — no
error propagates, and the execution record is written with
`executed=true`, `success=true`, `alreadyVoted=true`. -/
theorem c8_already_voted_treated_as_success
    (c : String) (st : VoterState) (o : Oracles) (proposalId : String)
    (opt : VoteOption) (p : ProposalData) (msg : String)
    (hexec : isProposalExecuted st proposalId = false)
    (hopts : p.voting_options.isNone = false)
    (hsnap : p.snapshot_and_state.isNone = false)
    (hstatus : validateProposalStatus p = Except.ok ())
    (hvoted : checkIfAlreadyVoted o = false)
    (hcast : o.castVoteResult = Except.error msg)
    (halready : containsSubstr msg "Already voted" = true) :
    voteOnProposal (some c) st o proposalId opt (some p) =
      (Except.ok (alreadyVotedResult o.now),
       withExecEntry st proposalId (alreadyVotedEntry o.now),
       [Effect.accountIdCall, Effect.checkVoteCall, Effect.castVoteCall opt]) := by
  simp [voteOnProposal, hexec, hopts, hsnap, hstatus, hvoted, hcast, halready,
    alreadyVotedResult, alreadyVotedEntry, withExecEntry]

/-- Witness for C8 with a concrete already-voted submission failure. -/
theorem c8_already_voted_treated_as_success_witness :
    voteOnProposal (some "vote.ballotbox.testnet") initialVoterState
        alreadyVotedOracles "7" VoteOption.Against (some sampleProposal) =
      (Except.ok (alreadyVotedResult 1700),
       withExecEntry initialVoterState "7" (alreadyVotedEntry 1700),
       [Effect.accountIdCall, Effect.checkVoteCall,
        Effect.castVoteCall VoteOption.Against]) :=
  c8_already_voted_treated_as_success "vote.ballotbox.testnet" initialVoterState
    alreadyVotedOracles "7" VoteOption.Against sampleProposal
    "Smart contract panicked: Already voted" (by decide) (by decide) (by decide)
    (by decide) (by decide) rfl (by decide)

/-- C9 counterexample: the claim says any letter-casing and surrounding
whitespace of "against" resolves to index 1, but the selected option is
only lower-cased, never trimmed (trimming applies to the option-list
entries), so " against " fails to match and an error is thrown. -/
theorem c9_whitespace_selected_option_counterexample :
    mapVoteChoiceToIndex (some ["For", "Against", "Abstain"]) " against " =
      Except.error "Selected option \" against \" not found in voting options" ∧
    mapVoteChoiceToIndex (some ["For", "Against", "Abstain"]) " against " ≠
      Except.ok 1 := by
  decide

/-- C9 amended: any letter-casing of "against" (without surrounding
whitespace) resolves to index 1 in `["For","Against","Abstain"]`; in
general the match lower-cases the selected label, trims and lower-cases
each option entry, and an error is thrown when no entry matches. -/
theorem c9_option_resolution_amended :
    (∀ s : String, toLowerStr s = "against" →
       mapVoteChoiceToIndex (some ["For", "Against", "Abstain"]) s =
         Except.ok 1) ∧
    (∀ (opts : List String) (s : String),
       (∀ opt ∈ opts,
         (!(strEmpty opt) && toLowerStr (trimStr opt) == toLowerStr s) = false) →
       ∃ msg, mapVoteChoiceToIndex (some opts) s = Except.error msg) := by
  constructor
  · intro s hs
    simp +decide [mapVoteChoiceToIndex, hs, List.findIdx?_cons]
  · intro opts s hall
    unfold mapVoteChoiceToIndex
    cases opts with
    | nil => exact ⟨_, rfl⟩
    | cons a l =>
      have hnone : List.findIdx?
          (fun opt => !(strEmpty opt) && toLowerStr (trimStr opt) == toLowerStr s)
          (a :: l) = none := by
        rw [List.findIdx?_eq_none_iff]
        intro x hx
        exact hall x hx
      simp [hnone]

/-- Witness for C9 amended at an upper-case selected label. -/
theorem c9_option_resolution_amended_witness :
    mapVoteChoiceToIndex (some ["For", "Against", "Abstain"]) "AGAINST" =
      Except.ok 1 :=
  c9_option_resolution_amended.1 "AGAINST" (by decide)

/-- C10 (implicit): an execution attempt on a proposal whose record already
shows `executed=true` hits the idempotency guard, whose error (with
lower-case "already voted", missed by the case-sensitive "Already voted"
probe for any ordinary proposal id) is caught by `executeVote`'s failure
handler — which overwrites the `executed=true` record with
`{executed:false, success:false, alreadyVoted:false}`; no signer call is
made (empty effect trace). -/
theorem c10_failed_reattempt_overwrites_executed_record
    (c : String) (st : VoterState) (o : Oracles) (d : VoteDecision)
    (proposal : Option ProposalData) (opt : VoteOption)
    (hopt : d.selectedOption = some opt)
    (hexec : isProposalExecuted st d.proposalId = true)
    (hmsg : containsSubstr ("Proposal " ++ d.proposalId ++ " already voted")
        "Already voted" = false) :
    List.lookup d.proposalId
        (executeVote (some c) st o d proposal).2.1.executionResults =
      some (reattemptFailureEntry
        ("Proposal " ++ d.proposalId ++ " already voted") o.now) ∧
    (executeVote (some c) st o d proposal).2.2 = [] := by
  have hguard : voteOnProposal (some c) st o d.proposalId opt proposal =
      (Except.error ("Proposal " ++ d.proposalId ++ " already voted"), st, []) := by
    simp [voteOnProposal, hexec]
  simp only [executeVote, hopt]
  rw [hguard]
  refine ⟨?_, rfl⟩
  simp only [hmsg]
  exact lookup_setEntry_self _ _ _

/-- Witness for C10: reattempting executed proposal 7 overwrites its
record with the failure entry. -/
theorem c10_failed_reattempt_overwrites_executed_record_witness :
    List.lookup "7" (executeVote (some "vote.ballotbox.testnet") executedState
        sampleOracles c10Decision none).2.1.executionResults =
      some (reattemptFailureEntry "Proposal 7 already voted" 1700) :=
  (c10_failed_reattempt_overwrites_executed_record "vote.ballotbox.testnet"
     executedState sampleOracles c10Decision none VoteOption.For rfl (by decide)
     (by decide)).1

end Votron
